import Mathlib

/-!
Verification of the meal_max catalog model and the wildlife_tracker
migration stub.

The catalog model (`kitchen_model`) is a persistence and business-rule
layer for a catalog of meal records: validation at construction and
creation, soft delete, point lookup, a ranked leaderboard, and a
battle-stats update.  The relational store is embedded as a list of rows;
each operation returns its result together with the list of statements it
issued against the store, so that "no storage call happens before this
error" becomes a provable statement about the trace.

Python's dynamic typing of the `price` and `difficulty` arguments is
embedded as a small value type `PVal` (a numeric or a string value);
floats are embedded as rationals.
-/

namespace MealMax

/-- A dynamically typed Python value supplied as `price` or `difficulty`:
either a number (int/float, embedded as a rational) or a string. -/
inductive PVal where
  | num (q : Rat)
  | str (s : String)
deriving DecidableEq, Repr

/-- Error taxonomy of the catalog model (spec section 7).  Each error
carries the offending value. -/
inductive KitchenError where
  | validationError (value : PVal)
  | duplicateError (name : String)
  | notFoundError (key : String)
  | alreadyDeletedError (id : Int)
  | invalidArgumentError (value : String)
  | storageError
deriving DecidableEq, Repr

/-- The Meal entity as reconstructed by point lookups. -/
structure Meal where
  id : Int
  meal : String
  cuisine : String
  price : Rat
  difficulty : String
deriving DecidableEq, Repr

/-- Modelled from the spec: `Meal` construction (the dataclass
`__post_init__` check of the missing `kitchen_model.py`).  The price must
be numeric and positive, the difficulty must be the exact string `LOW`,
`MED` or `HIGH`; a violation is a validation error carrying the offending
value, price checked first. -/
def Meal.make (id : Int) (name cuisine : String) (price difficulty : PVal) :
    Except KitchenError Meal :=
  match price, difficulty with
  | .num q, .str d =>
      if q ≤ 0 then .error (.validationError (.num q))
      else if d = "LOW" ∨ d = "MED" ∨ d = "HIGH" then .ok ⟨id, name, cuisine, q, d⟩
      else .error (.validationError (.str d))
  | .num q, d =>
      if q ≤ 0 then .error (.validationError (.num q))
      else .error (.validationError d)
  | p, _ => .error (.validationError p)

/-- A physical row of the `meals` table:
`(id, meal, cuisine, price, difficulty, battles, wins, deleted)`. -/
structure Row where
  id : Int
  meal : String
  cuisine : String
  price : Rat
  difficulty : String
  battles : Int
  wins : Int
  deleted : Bool
deriving DecidableEq, Repr

/-- The store: the list of physical rows of the `meals` table. -/
abbrev DB := List Row

/-- A parameterized statement issued against the store, recorded in the
trace of each operation. -/
inductive Stmt where
  | insertMeal (name cuisine : String) (price : Rat) (difficulty : String)
  | selectDeleted (id : Int)
  | updateDeleted (id : Int)
  | updateBattlesWins (id : Int)
  | updateBattles (id : Int)
  | selectById (id : Int)
  | selectByName (name : String)
  | selectLeaderboard (sortBy : String)
deriving DecidableEq, Repr

/-- Fetch the row with the given id (`SELECT ... WHERE id = ?`). -/
def findRow (db : DB) (id : Int) : Option Row :=
  db.find? (fun r => r.id == id)

/-- A fresh id for an insert, assigned by the store. -/
def nextId (db : DB) : Int :=
  db.foldr (fun r acc => max r.id acc) 0 + 1

/-- Response of the storage collaborator to a write. -/
inductive StoreWrite where
  | ok (db : DB)
  | uniqueViolation
  | otherFailure
deriving DecidableEq, Repr

/-- Modelled from the spec: the storage collaborator's insert (spec
section 6).  It reports a distinguishable uniqueness violation when the
name is already taken by a live row; `fault` injects "any other storage
failure"; otherwise the row is appended. -/
def storeInsert (db : DB) (fault : Bool) (row : Row) : StoreWrite :=
  if fault then .otherFailure
  else if db.any (fun r => r.meal == row.meal && !r.deleted) then .uniqueViolation
  else .ok (db ++ [row])

/-- Modelled from the spec: `create_meal` of the missing
`kitchen_model.py` (spec section 4.2).  Validation runs first and returns
without touching storage on failure; on success a single insert is
issued; a uniqueness violation from the store becomes a duplicate-name
error; any other storage failure becomes an operational error. -/
def create_meal (db : DB) (fault : Bool) (name cuisine : String)
    (price difficulty : PVal) : Except KitchenError DB × List Stmt :=
  match Meal.make 0 name cuisine price difficulty with
  | .error e => (.error e, [])
  | .ok m =>
      let row : Row :=
        ⟨nextId db, name, cuisine, m.price, m.difficulty, 0, 0, false⟩
      match storeInsert db fault row with
      | .ok db' => (.ok db', [.insertMeal name cuisine m.price m.difficulty])
      | .uniqueViolation =>
          (.error (.duplicateError name), [.insertMeal name cuisine m.price m.difficulty])
      | .otherFailure =>
          (.error .storageError, [.insertMeal name cuisine m.price m.difficulty])

/-- Set the deleted flag of the row with the given id
(`UPDATE meals SET deleted = TRUE WHERE id = ?`). -/
def markDeleted (db : DB) (id : Int) : DB :=
  db.map fun r => if r.id = id then { r with deleted := true } else r

/-- Increment battles and wins of the row with the given id
(`UPDATE meals SET battles = battles + 1, wins = wins + 1 WHERE id = ?`). -/
def bumpWin (db : DB) (id : Int) : DB :=
  db.map fun r =>
    if r.id = id then { r with battles := r.battles + 1, wins := r.wins + 1 } else r

/-- Increment battles of the row with the given id
(`UPDATE meals SET battles = battles + 1 WHERE id = ?`). -/
def bumpLoss (db : DB) (id : Int) : DB :=
  db.map fun r => if r.id = id then { r with battles := r.battles + 1 } else r

/-- Modelled from the spec: `delete_meal` of the missing
`kitchen_model.py` (spec section 4.3).  One read of the deleted flag:
missing id fails not-found, an already deleted row fails already-deleted,
otherwise one update sets the flag. -/
def delete_meal (db : DB) (id : Int) : Except KitchenError DB × List Stmt :=
  match findRow db id with
  | none => (.error (.notFoundError (toString id)), [.selectDeleted id])
  | some row =>
      if row.deleted then (.error (.alreadyDeletedError id), [.selectDeleted id])
      else (.ok (markDeleted db id), [.selectDeleted id, .updateDeleted id])

/-- Modelled from the spec: `update_meal_stats` of the missing
`kitchen_model.py` (spec section 4.5).  The existence/deleted read comes
first; only then is the outcome checked against {win, loss}; a win bumps
battles and wins in one update, a loss bumps only battles. -/
def update_meal_stats (db : DB) (id : Int) (result : String) :
    Except KitchenError DB × List Stmt :=
  match findRow db id with
  | none => (.error (.notFoundError (toString id)), [.selectDeleted id])
  | some row =>
      if row.deleted then (.error (.alreadyDeletedError id), [.selectDeleted id])
      else if result = "win" then
        (.ok (bumpWin db id), [.selectDeleted id, .updateBattlesWins id])
      else if result = "loss" then
        (.ok (bumpLoss db id), [.selectDeleted id, .updateBattles id])
      else (.error (.invalidArgumentError result), [.selectDeleted id])

/-- Reconstruct the Meal value from a physical row. -/
def rowToMeal (r : Row) : Meal :=
  ⟨r.id, r.meal, r.cuisine, r.price, r.difficulty⟩

/-- Modelled from the spec: `get_meal_by_id` of the missing
`kitchen_model.py` (spec section 4.4).  Missing row and deleted row both
fail not-found; a live row is reconstructed. -/
def get_meal_by_id (db : DB) (id : Int) : Except KitchenError Meal × List Stmt :=
  match findRow db id with
  | none => (.error (.notFoundError (toString id)), [.selectById id])
  | some row =>
      if row.deleted then (.error (.notFoundError (toString id)), [.selectById id])
      else (.ok (rowToMeal row), [.selectById id])

/-- Modelled from the spec: `get_meal_by_name` of the missing
`kitchen_model.py` (spec section 4.4). -/
def get_meal_by_name (db : DB) (name : String) : Except KitchenError Meal × List Stmt :=
  match db.find? (fun r => r.meal == name) with
  | none => (.error (.notFoundError name), [.selectByName name])
  | some row =>
      if row.deleted then (.error (.notFoundError name), [.selectByName name])
      else (.ok (rowToMeal row), [.selectByName name])

/-- A leaderboard entry: the row fields plus the derived `win_pct`
percentage. -/
structure LBEntry where
  id : Int
  meal : String
  cuisine : String
  price : Rat
  difficulty : String
  battles : Int
  wins : Int
  win_pct : Rat
deriving DecidableEq, Repr

/-- A ranking entry for a row: `win_pct` is the win ratio rescaled to a
percentage. -/
def rowToEntry (r : Row) : LBEntry :=
  ⟨r.id, r.meal, r.cuisine, r.price, r.difficulty, r.battles, r.wins,
    100 * ((r.wins : Rat) / (r.battles : Rat))⟩

/-- The ranking field selected by `sort_by`. -/
def sortKey (sortBy : String) (e : LBEntry) : Rat :=
  if sortBy = "win_pct" then e.win_pct else (e.wins : Rat)

/-- Descending order on entries by the requested field. -/
def lbDesc (sortBy : String) (a b : LBEntry) : Prop :=
  sortKey sortBy b ≤ sortKey sortBy a

instance (sortBy : String) : DecidableRel (lbDesc sortBy) := fun a b =>
  inferInstanceAs (Decidable (sortKey sortBy b ≤ sortKey sortBy a))

instance (sortBy : String) : IsTotal LBEntry (lbDesc sortBy) :=
  ⟨fun a b => le_total (sortKey sortBy b) (sortKey sortBy a)⟩

instance (sortBy : String) : IsTrans LBEntry (lbDesc sortBy) :=
  ⟨fun _ _ _ hab hbc => le_trans hbc hab⟩

/-- A row is live for ranking: not deleted and with at least one battle. -/
def liveRanked (r : Row) : Bool :=
  !r.deleted && decide (0 < r.battles)

/-- Modelled from the spec: `get_leaderboard` of the missing
`kitchen_model.py` (spec section 4.6).  An unrecognized `sort_by` fails
before any query; otherwise one query selects the live rows with at least
one battle, computes the win ratio, and orders descending by the
requested field. -/
def get_leaderboard (db : DB) (sortBy : String) :
    Except KitchenError (List LBEntry) × List Stmt :=
  if sortBy = "wins" ∨ sortBy = "win_pct" then
    (.ok (((db.filter liveRanked).map rowToEntry).insertionSort (lbDesc sortBy)),
      [.selectLeaderboard sortBy])
  else (.error (.invalidArgumentError sortBy), [])

/-- The states of the store reachable from the empty table through the
mutating operations of the model (with a non-faulting store). -/
inductive Reachable : DB → Prop where
  | init : Reachable []
  | create (db db' : DB) (f : Bool) (n c : String) (p d : PVal) (tr : List Stmt) :
      Reachable db → create_meal db f n c p d = (.ok db', tr) → Reachable db'
  | delete (db db' : DB) (id : Int) (tr : List Stmt) :
      Reachable db → delete_meal db id = (.ok db', tr) → Reachable db'
  | stats (db db' : DB) (id : Int) (res : String) (tr : List Stmt) :
      Reachable db → update_meal_stats db id res = (.ok db', tr) → Reachable db'

/-- The spec's validity condition on a supplied price: a numeric value
that is strictly positive. -/
def goodPrice (p : PVal) : Prop :=
  match p with
  | .num q => 0 < q
  | .str _ => False

instance (p : PVal) : Decidable (goodPrice p) :=
  match p with
  | .num q => inferInstanceAs (Decidable (0 < q))
  | .str _ => inferInstanceAs (Decidable False)

/-- The spec's validity condition on a supplied difficulty: exactly one
of the strings LOW, MED, HIGH. -/
def goodDifficulty (d : PVal) : Prop :=
  match d with
  | .str s => s = "LOW" ∨ s = "MED" ∨ s = "HIGH"
  | .num _ => False

instance (d : PVal) : Decidable (goodDifficulty d) :=
  match d with
  | .str s => inferInstanceAs (Decidable (s = "LOW" ∨ s = "MED" ∨ s = "HIGH"))
  | .num _ => inferInstanceAs (Decidable False)

/-- Statement-level invariant of the stats counters: non-negative and
never more wins than battles. -/
def StatsInv (db : DB) : Prop :=
  ∀ r ∈ db, 0 ≤ r.wins ∧ 0 ≤ r.battles ∧ r.wins ≤ r.battles

/-- Example row: a live meal with two battles and one win. -/
def rowA : Row := ⟨1, "Meal A", "Cuisine A", 1, "LOW", 2, 1, false⟩

/-- Example row: a soft-deleted meal. -/
def rowB : Row := ⟨2, "Meal B", "Cuisine B", 2, "MED", 3, 3, true⟩

/-- Example row: a live meal with no battles yet. -/
def rowC : Row := ⟨3, "Meal C", "Cuisine C", 3, "HIGH", 0, 0, false⟩

/-- Example table used to evaluate the operations on concrete data. -/
def dbEx : DB := [rowA, rowB, rowC]

end MealMax

namespace WildlifeTracker

/-- The Migration record of
`wildlife_tracker/migration_tracking/migration.py`, with its instance
attributes.  `MigrationPath` and `Habitat` are opaque collaborator types. -/
structure Migration (MigrationPath Habitat : Type) where
  path_id : Int
  current_date : String
  current_location : String
  species : String
  start_date : String
  start_location : Habitat
  status : String
  destination : Habitat
  migration_id : Int
  migration_path : MigrationPath
  duration : Option Int
  animals : List Int

/-- `Migration.__init__`: the attribute assignments in source order; the
`status` argument is assigned and then overwritten with "Scheduled", and
`animals` defaults to the empty list via `animals or []`. -/
def Migration.init {MigrationPath Habitat : Type}
    (path_id : Int) (current_date current_location species start_date : String)
    (start_location : Habitat) (status : String) (destination : Habitat)
    (migration_id : Int) (migration_path : MigrationPath)
    (duration : Option Int) (animals : Option (List Int)) :
    Migration MigrationPath Habitat :=
  let m : Migration MigrationPath Habitat :=
    { path_id := path_id
      current_date := current_date
      current_location := current_location
      species := species
      start_date := start_date
      start_location := start_location
      status := status
      destination := destination
      migration_id := migration_id
      migration_path := migration_path
      duration := duration
      animals := animals.getD [] }
  { m with status := "Scheduled" }

end WildlifeTracker

namespace MealMax

theorem make_ok_of_good (id : Int) (n c : String) (p d : PVal)
    (hp : goodPrice p) (hd : goodDifficulty d) :
    ∃ q s, p = .num q ∧ d = .str s ∧ Meal.make id n c p d = .ok ⟨id, n, c, q, s⟩ := by
  cases p with
  | str s => exact absurd hp (by simp [goodPrice])
  | num q =>
    cases d with
    | num q2 => exact absurd hd (by simp [goodDifficulty])
    | str s =>
      refine ⟨q, s, rfl, rfl, ?_⟩
      have hq : ¬ q ≤ 0 := not_le.mpr hp
      have hs : s = "LOW" ∨ s = "MED" ∨ s = "HIGH" := hd
      simp [Meal.make, hq, hs]

theorem make_error_of_bad (id : Int) (n c : String) (p d : PVal)
    (h : ¬(goodPrice p ∧ goodDifficulty d)) :
    ∃ v, Meal.make id n c p d = .error (.validationError v) := by
  cases p with
  | str s => exact ⟨.str s, by cases d <;> rfl⟩
  | num q =>
    by_cases hq : q ≤ 0
    · exact ⟨.num q, by cases d <;> simp [Meal.make, hq]⟩
    · cases d with
      | num q2 => exact ⟨.num q2, by simp [Meal.make, hq]⟩
      | str s =>
        have hs : ¬(s = "LOW" ∨ s = "MED" ∨ s = "HIGH") := fun hs =>
          h ⟨not_le.mp hq, hs⟩
        exact ⟨.str s, by simp [Meal.make, hq, hs]⟩

theorem good_of_make_ok (id : Int) (n c : String) (p d : PVal) (m : Meal)
    (h : Meal.make id n c p d = .ok m) : goodPrice p ∧ goodDifficulty d := by
  cases p with
  | str s => cases d <;> simp [Meal.make] at h
  | num q =>
    cases d with
    | num q2 =>
      by_cases hq : q ≤ 0 <;> simp [Meal.make, hq] at h
    | str s =>
      by_cases hq : q ≤ 0
      · simp [Meal.make, hq] at h
      · by_cases hs : s = "LOW" ∨ s = "MED" ∨ s = "HIGH"
        · exact ⟨not_le.mp hq, hs⟩
        · simp [Meal.make, hq, hs] at h

/-- C1 (amended): `Meal` construction and `create_meal` fail with a
validation error exactly when the supplied price is not a positive number
or the supplied difficulty is not one of LOW, MED, HIGH; for every
price > 0 with a valid difficulty, construction succeeds, and creation
succeeds provided the name is not already taken by a live row and the
store does not fail. -/
theorem validation_error_iff (db : DB) (f : Bool) (id : Int) (n c : String)
    (p d : PVal) :
    ((∃ v, Meal.make id n c p d = .error (.validationError v)) ↔
      ¬(goodPrice p ∧ goodDifficulty d)) ∧
    ((∃ m, Meal.make id n c p d = .ok m) ↔ (goodPrice p ∧ goodDifficulty d)) ∧
    ((∃ v, (create_meal db f n c p d).1 = .error (.validationError v)) ↔
      ¬(goodPrice p ∧ goodDifficulty d)) ∧
    (goodPrice p → goodDifficulty d →
      db.any (fun r => r.meal == n && !r.deleted) = false →
      ∃ db', (create_meal db false n c p d).1 = .ok db') := by
  refine ⟨⟨?_, ?_⟩, ⟨?_, ?_⟩, ⟨?_, ?_⟩, ?_⟩
  · rintro ⟨v, hv⟩ ⟨hp, hd⟩
    obtain ⟨q, s, -, -, hok⟩ := make_ok_of_good id n c p d hp hd
    rw [hok] at hv; exact absurd hv (by simp)
  · exact fun h => make_error_of_bad id n c p d h
  · rintro ⟨m, hm⟩; exact good_of_make_ok id n c p d m hm
  · rintro ⟨hp, hd⟩
    obtain ⟨q, s, -, -, hok⟩ := make_ok_of_good id n c p d hp hd
    exact ⟨_, hok⟩
  · rintro ⟨v, hv⟩ ⟨hp, hd⟩
    obtain ⟨q, s, -, -, hok⟩ := make_ok_of_good 0 n c p d hp hd
    rw [create_meal, hok] at hv
    cases hw : storeInsert db f
        ⟨nextId db, n, c, (Meal.mk 0 n c q s).price, (Meal.mk 0 n c q s).difficulty,
          0, 0, false⟩ <;>
      simp [hw] at hv
  · intro h
    obtain ⟨v, hv⟩ := make_error_of_bad 0 n c p d h
    exact ⟨v, by rw [create_meal, hv]⟩
  · intro hp hd hdup
    obtain ⟨q, s, -, -, hok⟩ := make_ok_of_good 0 n c p d hp hd
    refine ⟨db ++ [⟨nextId db, n, c, q, s, 0, 0, false⟩], ?_⟩
    rw [create_meal, hok]
    simp [storeInsert, hdup]

theorem findRow_map_preserve (db : DB) (id : Int) (f : Row → Row)
    (hf : ∀ r, (f r).id = r.id) :
    findRow (db.map f) id = (findRow db id).map f := by
  unfold findRow
  rw [List.find?_map]
  have hcomp : ((fun r : Row => r.id == id) ∘ f) = fun r : Row => r.id == id := by
    funext r
    simp [Function.comp, hf]
  rw [hcomp]

theorem findRow_id (db : DB) (id : Int) (row : Row)
    (hfind : findRow db id = some row) : row.id = id := by
  simpa using List.find?_some hfind

/-- C2: for every live meal id, a `win` update bumps the row's battles
and wins each by exactly 1 with a single update statement after the read,
a `loss` update bumps only battles, and rows with any other id are left
unchanged. -/
theorem update_stats_win_loss (db : DB) (id : Int) (row : Row)
    (hfind : findRow db id = some row) (hlive : row.deleted = false) :
    update_meal_stats db id "win"
      = (.ok (bumpWin db id), [.selectDeleted id, .updateBattlesWins id]) ∧
    findRow (bumpWin db id) id
      = some { row with battles := row.battles + 1, wins := row.wins + 1 } ∧
    update_meal_stats db id "loss"
      = (.ok (bumpLoss db id), [.selectDeleted id, .updateBattles id]) ∧
    findRow (bumpLoss db id) id = some { row with battles := row.battles + 1 } ∧
    (∀ r ∈ db, r.id ≠ id → r ∈ bumpWin db id ∧ r ∈ bumpLoss db id) := by
  have hid : row.id = id := findRow_id db id row hfind
  refine ⟨?_, ?_, ?_, ?_, ?_⟩
  · simp [update_meal_stats, hfind, hlive]
  · rw [bumpWin,
      findRow_map_preserve db id _ (fun r => by by_cases h : r.id = id <;> simp [h]),
      hfind]
    simp [hid]
  · simp [update_meal_stats, hfind, hlive]
  · rw [bumpLoss,
      findRow_map_preserve db id _ (fun r => by by_cases h : r.id = id <;> simp [h]),
      hfind]
    simp [hid]
  · intro r hr hne
    constructor
    · have h1 := List.mem_map_of_mem
        (fun s : Row =>
          if s.id = id then { s with battles := s.battles + 1, wins := s.wins + 1 }
          else s) hr
      simpa [bumpWin, hne] using h1
    · have h1 := List.mem_map_of_mem
        (fun s : Row => if s.id = id then { s with battles := s.battles + 1 } else s)
        hr
      simpa [bumpLoss, hne] using h1

/-- C2 witness: updating the live example row id 1 with a win bumps
battles 2 → 3 and wins 1 → 2; a loss bumps only battles. -/
theorem update_stats_win_loss_witness :
    findRow dbEx 1 = some rowA ∧ rowA.deleted = false ∧
    update_meal_stats dbEx 1 "win"
      = (.ok (bumpWin dbEx 1), [.selectDeleted 1, .updateBattlesWins 1]) ∧
    findRow (bumpWin dbEx 1) 1
      = some { rowA with battles := rowA.battles + 1, wins := rowA.wins + 1 } ∧
    update_meal_stats dbEx 1 "loss"
      = (.ok (bumpLoss dbEx 1), [.selectDeleted 1, .updateBattles 1]) ∧
    findRow (bumpLoss dbEx 1) 1 = some { rowA with battles := rowA.battles + 1 } :=
  have h := update_stats_win_loss dbEx 1 rowA rfl rfl
  ⟨rfl, rfl, h.1, h.2.1, h.2.2.1, h.2.2.2.1⟩

theorem storeInsert_ok (db : DB) (fault : Bool) (row : Row) (db2 : DB)
    (h : storeInsert db fault row = .ok db2) : db2 = db ++ [row] := by
  rw [storeInsert] at h
  split at h
  · exact absurd h (by simp)
  · split at h
    · exact absurd h (by simp)
    · simpa using h.symm

theorem create_meal_ok_shape (db db' : DB) (f : Bool) (n c : String) (p d : PVal)
    (tr : List Stmt) (h : create_meal db f n c p d = (.ok db', tr)) :
    ∃ row : Row, row.battles = 0 ∧ row.wins = 0 ∧ db' = db ++ [row] := by
  cases hm : Meal.make 0 n c p d with
  | error e => simp [create_meal, hm] at h
  | ok m =>
    cases hw : storeInsert db f ⟨nextId db, n, c, m.price, m.difficulty, 0, 0, false⟩ with
    | ok db2 =>
      refine ⟨⟨nextId db, n, c, m.price, m.difficulty, 0, 0, false⟩, rfl, rfl, ?_⟩
      have h2 : db' = db2 := by simp [create_meal, hm, hw] at h; exact h.1.symm
      rw [h2, storeInsert_ok db f _ db2 hw]
    | uniqueViolation => simp [create_meal, hm, hw] at h
    | otherFailure => simp [create_meal, hm, hw] at h

theorem delete_meal_ok_shape (db db' : DB) (id : Int) (tr : List Stmt)
    (h : delete_meal db id = (.ok db', tr)) : db' = markDeleted db id := by
  rw [delete_meal] at h
  cases hf : findRow db id with
  | none => rw [hf] at h; exact absurd h (by simp)
  | some row =>
    rw [hf] at h
    by_cases hd : row.deleted
    · simp [hd] at h
    · simp [hd] at h
      exact h.1.symm

theorem update_stats_ok_shape (db db' : DB) (id : Int) (res : String)
    (tr : List Stmt) (h : update_meal_stats db id res = (.ok db', tr)) :
    db' = bumpWin db id ∨ db' = bumpLoss db id := by
  rw [update_meal_stats] at h
  cases hf : findRow db id with
  | none => rw [hf] at h; exact absurd h (by simp)
  | some row =>
    rw [hf] at h
    by_cases hd : row.deleted
    · simp [hd] at h
    · by_cases hw : res = "win"
      · simp [hd, hw] at h
        exact .inl h.1.symm
      · by_cases hl : res = "loss"
        · simp [hd, hw, hl] at h
          exact .inr h.1.symm
        · simp [hd, hw, hl] at h

theorem statsInv_markDeleted (db : DB) (id : Int) (h : StatsInv db) :
    StatsInv (markDeleted db id) := by
  intro r hr
  obtain ⟨r0, hr0, rfl⟩ := List.mem_map.mp hr
  by_cases hh : r0.id = id
  · simpa [hh] using h r0 hr0
  · simpa [hh] using h r0 hr0

theorem statsInv_bumpWin (db : DB) (id : Int) (h : StatsInv db) :
    StatsInv (bumpWin db id) := by
  intro r hr
  obtain ⟨r0, hr0, rfl⟩ := List.mem_map.mp hr
  obtain ⟨h1, h2, h3⟩ := h r0 hr0
  by_cases hh : r0.id = id
  · refine ⟨?_, ?_, ?_⟩ <;> simp [hh] <;> omega
  · simpa [hh] using ⟨h1, h2, h3⟩

theorem statsInv_bumpLoss (db : DB) (id : Int) (h : StatsInv db) :
    StatsInv (bumpLoss db id) := by
  intro r hr
  obtain ⟨r0, hr0, rfl⟩ := List.mem_map.mp hr
  obtain ⟨h1, h2, h3⟩ := h r0 hr0
  by_cases hh : r0.id = id
  · refine ⟨?_, ?_, ?_⟩ <;> simp [hh] <;> omega
  · simpa [hh] using ⟨h1, h2, h3⟩

/-- C3: in every table reachable from the empty store through the
mutating operations, every row has non-negative battle and win counters
with wins never exceeding battles. -/
theorem reachable_stats_invariant (db : DB) (h : Reachable db) :
    ∀ r ∈ db, 0 ≤ r.wins ∧ 0 ≤ r.battles ∧ r.wins ≤ r.battles := by
  induction h with
  | init => intro r hr; cases hr
  | create db0 db' f n c p d tr hre heq ih =>
    obtain ⟨row, hb, hw, rfl⟩ := create_meal_ok_shape db0 db' f n c p d tr heq
    intro r hr
    rcases List.mem_append.mp hr with h1 | h1
    · exact ih r h1
    · rw [List.mem_singleton] at h1
      subst h1
      rw [hb, hw]
      exact ⟨le_refl 0, le_refl 0, le_refl 0⟩
  | delete db0 db' id tr hre heq ih =>
    rw [delete_meal_ok_shape db0 db' id tr heq]
    exact statsInv_markDeleted db0 id ih
  | stats db0 db' id res tr hre heq ih =>
    rcases update_stats_ok_shape db0 db' id res tr heq with h1 | h1 <;> rw [h1]
    · exact statsInv_bumpWin db0 id ih
    · exact statsInv_bumpLoss db0 id ih

/-- C3 witness: the single-row table obtained by one successful create is
reachable and satisfies the counter invariant. -/
theorem reachable_stats_invariant_witness :
    Reachable [(⟨1, "Pizza", "Italian", 13, "MED", 0, 0, false⟩ : Row)] ∧
    ∀ r ∈ [(⟨1, "Pizza", "Italian", 13, "MED", 0, 0, false⟩ : Row)],
      0 ≤ r.wins ∧ 0 ≤ r.battles ∧ r.wins ≤ r.battles :=
  have hre : Reachable [(⟨1, "Pizza", "Italian", 13, "MED", 0, 0, false⟩ : Row)] :=
    .create [] _ false "Pizza" "Italian" (.num 13) (.str "MED") _ .init rfl
  ⟨hre, reachable_stats_invariant _ hre⟩

/-- C4: for every valid sort field, the leaderboard is exactly the live
rows with at least one battle (as a permutation and by double inclusion),
every entry's win_pct is 100 * wins / battles of its source row, and the
sequence is pairwise descending in the requested field. -/
theorem get_leaderboard_spec (db : DB) (s : String)
    (h : s = "wins" ∨ s = "win_pct") :
    ∃ entries,
      get_leaderboard db s = (.ok entries, [.selectLeaderboard s]) ∧
      entries.Perm ((db.filter liveRanked).map rowToEntry) ∧
      (∀ e ∈ entries, ∃ r ∈ db, r.deleted = false ∧ 0 < r.battles ∧
        e = rowToEntry r ∧ e.win_pct = 100 * (r.wins : Rat) / (r.battles : Rat)) ∧
      (∀ r ∈ db, r.deleted = false → 0 < r.battles → rowToEntry r ∈ entries) ∧
      entries.Pairwise (lbDesc s) := by
  refine ⟨((db.filter liveRanked).map rowToEntry).insertionSort (lbDesc s),
    ?_, ?_, ?_, ?_, ?_⟩
  · rw [get_leaderboard, if_pos h]
  · exact List.perm_insertionSort _ _
  · intro e he
    rw [List.mem_insertionSort] at he
    obtain ⟨r, hrf, rfl⟩ := List.mem_map.mp he
    rw [List.mem_filter] at hrf
    obtain ⟨hrdb, hlive⟩ := hrf
    rw [liveRanked] at hlive
    simp only [Bool.and_eq_true, Bool.not_eq_true', decide_eq_true_eq] at hlive
    refine ⟨r, hrdb, hlive.1, hlive.2, rfl, ?_⟩
    rw [rowToEntry]
    ring
  · intro r hrdb hdel hbat
    rw [List.mem_insertionSort]
    exact List.mem_map_of_mem _
      (List.mem_filter.mpr ⟨hrdb, by simp [liveRanked, hdel, hbat]⟩)
  · exact List.sorted_insertionSort _ _

/-- C4 witness: the leaderboard of the example table for the sort field
"wins" (only the live row with battles is ranked). -/
theorem get_leaderboard_spec_witness :
    ("wins" = "wins" ∨ "wins" = "win_pct") ∧
    ∃ entries,
      get_leaderboard dbEx "wins" = (.ok entries, [.selectLeaderboard "wins"]) ∧
      entries.Perm ((dbEx.filter liveRanked).map rowToEntry) ∧
      (∀ e ∈ entries, ∃ r ∈ dbEx, r.deleted = false ∧ 0 < r.battles ∧
        e = rowToEntry r ∧ e.win_pct = 100 * (r.wins : Rat) / (r.battles : Rat)) ∧
      (∀ r ∈ dbEx, r.deleted = false → 0 < r.battles → rowToEntry r ∈ entries) ∧
      entries.Pairwise (lbDesc "wins") :=
  ⟨Or.inl rfl, get_leaderboard_spec dbEx "wins" (Or.inl rfl)⟩

/-- C5: deleting a missing id fails not-found, deleting an already
deleted row fails already-deleted (so a second delete of the same id
fails), and deleting a live row sets its deleted flag and succeeds. -/
theorem delete_meal_spec (db : DB) (id : Int) :
    (findRow db id = none →
      delete_meal db id
        = (.error (.notFoundError (toString id)), [.selectDeleted id])) ∧
    (∀ row, findRow db id = some row → row.deleted = true →
      delete_meal db id = (.error (.alreadyDeletedError id), [.selectDeleted id])) ∧
    (∀ row, findRow db id = some row → row.deleted = false →
      delete_meal db id
        = (.ok (markDeleted db id), [.selectDeleted id, .updateDeleted id]) ∧
      findRow (markDeleted db id) id = some { row with deleted := true } ∧
      (delete_meal (markDeleted db id) id).1 = .error (.alreadyDeletedError id)) := by
  refine ⟨?_, ?_, ?_⟩
  · intro h; simp [delete_meal, h]
  · intro row h hd; simp [delete_meal, h, hd]
  · intro row h hd
    have hid := findRow_id db id row h
    have hmark : findRow (markDeleted db id) id = some { row with deleted := true } := by
      rw [markDeleted,
        findRow_map_preserve db id _ (fun r => by by_cases hh : r.id = id <;> simp [hh]),
        h]
      simp [hid]
    exact ⟨by simp [delete_meal, h, hd], hmark, by simp [delete_meal, hmark]⟩

/-- C5 witness: on the example table, deleting id 999 fails not-found,
deleting the already deleted id 2 fails already-deleted, deleting the
live id 1 succeeds and a second delete of id 1 then fails. -/
theorem delete_meal_spec_witness :
    findRow dbEx 999 = none ∧
    delete_meal dbEx 999 = (.error (.notFoundError "999"), [.selectDeleted 999]) ∧
    findRow dbEx 2 = some rowB ∧ rowB.deleted = true ∧
    delete_meal dbEx 2 = (.error (.alreadyDeletedError 2), [.selectDeleted 2]) ∧
    findRow dbEx 1 = some rowA ∧ rowA.deleted = false ∧
    delete_meal dbEx 1
      = (.ok (markDeleted dbEx 1), [.selectDeleted 1, .updateDeleted 1]) ∧
    (delete_meal (markDeleted dbEx 1) 1).1 = .error (.alreadyDeletedError 1) :=
  ⟨rfl, (delete_meal_spec dbEx 999).1 rfl, rfl, rfl,
    (delete_meal_spec dbEx 2).2.1 rowB rfl rfl, rfl, rfl,
    ((delete_meal_spec dbEx 1).2.2 rowA rfl rfl).1,
    ((delete_meal_spec dbEx 1).2.2 rowA rfl rfl).2.2⟩

/-- C6: point lookup by id and by name fails not-found both when no
matching row exists and when the matching row is soft-deleted, and
returns the reconstructed Meal only for a live matching row. -/
theorem lookup_spec (db : DB) (id : Int) (name : String) :
    (findRow db id = none →
      get_meal_by_id db id
        = (.error (.notFoundError (toString id)), [.selectById id])) ∧
    (∀ row, findRow db id = some row → row.deleted = true →
      get_meal_by_id db id
        = (.error (.notFoundError (toString id)), [.selectById id])) ∧
    (∀ row, findRow db id = some row → row.deleted = false →
      get_meal_by_id db id = (.ok (rowToMeal row), [.selectById id])) ∧
    (db.find? (fun r => r.meal == name) = none →
      get_meal_by_name db name
        = (.error (.notFoundError name), [.selectByName name])) ∧
    (∀ row, db.find? (fun r => r.meal == name) = some row → row.deleted = true →
      get_meal_by_name db name
        = (.error (.notFoundError name), [.selectByName name])) ∧
    (∀ row, db.find? (fun r => r.meal == name) = some row → row.deleted = false →
      get_meal_by_name db name = (.ok (rowToMeal row), [.selectByName name])) := by
  refine ⟨?_, ?_, ?_, ?_, ?_, ?_⟩
  · intro h; simp [get_meal_by_id, h]
  · intro row h hd; simp [get_meal_by_id, h, hd]
  · intro row h hd; simp [get_meal_by_id, h, hd]
  · intro h; simp [get_meal_by_name, h]
  · intro row h hd; simp [get_meal_by_name, h, hd]
  · intro row h hd; simp [get_meal_by_name, h, hd]

/-- C6 witness: on the example table, id 999 and name "food" are
not-found, the deleted id 2 and name "Meal B" are not-found, and the live
id 1 and name "Meal A" return the reconstructed Meal. -/
theorem lookup_spec_witness :
    get_meal_by_id dbEx 999 = (.error (.notFoundError "999"), [.selectById 999]) ∧
    get_meal_by_id dbEx 2 = (.error (.notFoundError "2"), [.selectById 2]) ∧
    get_meal_by_id dbEx 1 = (.ok (rowToMeal rowA), [.selectById 1]) ∧
    get_meal_by_name dbEx "food"
      = (.error (.notFoundError "food"), [.selectByName "food"]) ∧
    get_meal_by_name dbEx "Meal B"
      = (.error (.notFoundError "Meal B"), [.selectByName "Meal B"]) ∧
    get_meal_by_name dbEx "Meal A" = (.ok (rowToMeal rowA), [.selectByName "Meal A"]) :=
  ⟨(lookup_spec dbEx 999 "food").1 rfl,
    (lookup_spec dbEx 2 "food").2.1 rowB rfl rfl,
    (lookup_spec dbEx 1 "food").2.2.1 rowA rfl rfl,
    (lookup_spec dbEx 1 "food").2.2.2.1 rfl,
    (lookup_spec dbEx 1 "Meal B").2.2.2.2.1 rowB rfl rfl,
    (lookup_spec dbEx 1 "Meal A").2.2.2.2.2 rowA rfl rfl⟩

/-- C7: in `update_meal_stats` the outcome is validated only after the
existence/deleted read: a missing or deleted id reports its error for
every outcome value, and a live id with an outcome outside {win, loss}
fails invalid-result with no write issued (the trace holds only the
read). -/
theorem stats_check_order (db : DB) (id : Int) (outcome : String) :
    (findRow db id = none →
      update_meal_stats db id outcome
        = (.error (.notFoundError (toString id)), [.selectDeleted id])) ∧
    (∀ row, findRow db id = some row → row.deleted = true →
      update_meal_stats db id outcome
        = (.error (.alreadyDeletedError id), [.selectDeleted id])) ∧
    (∀ row, findRow db id = some row → row.deleted = false → outcome ≠ "win" →
      outcome ≠ "loss" →
      update_meal_stats db id outcome
        = (.error (.invalidArgumentError outcome), [.selectDeleted id])) := by
  refine ⟨?_, ?_, ?_⟩
  · intro h; simp [update_meal_stats, h]
  · intro row h hd; simp [update_meal_stats, h, hd]
  · intro row h hd hw hl; simp [update_meal_stats, h, hd, hw, hl]

/-- C7 witness: with the invalid outcome "invalid", the missing id 999
reports not-found, the deleted id 2 reports the deleted error, and the
live id 1 reports invalid-result with only the read in the trace. -/
theorem stats_check_order_witness :
    update_meal_stats dbEx 999 "invalid"
      = (.error (.notFoundError "999"), [.selectDeleted 999]) ∧
    update_meal_stats dbEx 2 "invalid"
      = (.error (.alreadyDeletedError 2), [.selectDeleted 2]) ∧
    update_meal_stats dbEx 1 "invalid"
      = (.error (.invalidArgumentError "invalid"), [.selectDeleted 1]) :=
  ⟨(stats_check_order dbEx 999 "invalid").1 rfl,
    (stats_check_order dbEx 2 "invalid").2.1 rowB rfl rfl,
    (stats_check_order dbEx 1 "invalid").2.2 rowA rfl rfl (by decide) (by decide)⟩

/-- C8 (amended): create validation errors and leaderboard sort errors
are raised with no storage statement issued; the stats-update outcome
error is raised after the single existence read and before any write, so
no write is issued on that failure. -/
theorem errors_before_storage (db : DB) (f : Bool) (n c : String) (p d : PVal)
    (s outcome : String) (id : Int) :
    (¬(goodPrice p ∧ goodDifficulty d) → (create_meal db f n c p d).2 = []) ∧
    (s ≠ "wins" → s ≠ "win_pct" →
      get_leaderboard db s = (.error (.invalidArgumentError s), [])) ∧
    (∀ row, findRow db id = some row → row.deleted = false → outcome ≠ "win" →
      outcome ≠ "loss" →
      (update_meal_stats db id outcome).2 = [.selectDeleted id]) := by
  refine ⟨?_, ?_, ?_⟩
  · intro h
    obtain ⟨v, hv⟩ := make_error_of_bad 0 n c p d h
    rw [create_meal, hv]
  · intro hw hp
    have hs : ¬(s = "wins" ∨ s = "win_pct") := by simp [hw, hp]
    simp [get_leaderboard, hs]
  · intro row h hd hw hl; simp [update_meal_stats, h, hd, hw, hl]

/-- C8 counterexample: the invalid-result error of `update_meal_stats`
on the live id 1 is raised only after the existence read, so storage is
not untouched: the trace of the failing call is nonempty. -/
theorem stats_invalid_outcome_touches_storage :
    (update_meal_stats dbEx 1 "invalid").1
      = .error (.invalidArgumentError "invalid") ∧
    (update_meal_stats dbEx 1 "invalid").2 = [.selectDeleted 1] ∧
    (update_meal_stats dbEx 1 "invalid").2 ≠ [] :=
  ⟨rfl, rfl, by decide⟩

/-- C8 witness: a create with a non-positive price and a leaderboard with
an unrecognized sort field issue no storage statement, and the
invalid-outcome stats update on the live id 1 issues only the read. -/
theorem errors_before_storage_witness :
    ¬(goodPrice (.num 0) ∧ goodDifficulty (.str "MED")) ∧
    (create_meal dbEx false "Pizza" "Italian" (.num 0) (.str "MED")).2 = [] ∧
    get_leaderboard dbEx "param" = (.error (.invalidArgumentError "param"), []) ∧
    (update_meal_stats dbEx 1 "invalid").2 = [.selectDeleted 1] :=
  have h := errors_before_storage dbEx false "Pizza" "Italian" (.num 0) (.str "MED")
    "param" "invalid" 1
  ⟨by norm_num [goodPrice], h.1 (by norm_num [goodPrice]),
    h.2.1 (by decide) (by decide),
    h.2.2 rowA rfl rfl (by decide) (by decide)⟩

/-- C9: with valid inputs, a store-reported name-uniqueness violation
surfaces from `create_meal` as a duplicate-name error, and any other
storage failure surfaces as the operational storage error, never the raw
store response. -/
theorem create_store_failures_classified (db : DB) (n c : String) (p d : PVal)
    (hp : goodPrice p) (hd : goodDifficulty d) :
    (db.any (fun r => r.meal == n && !r.deleted) = true →
      (create_meal db false n c p d).1 = .error (.duplicateError n)) ∧
    (create_meal db true n c p d).1 = .error .storageError := by
  obtain ⟨q, s, -, -, hok⟩ := make_ok_of_good 0 n c p d hp hd
  constructor
  · intro hdup
    rw [create_meal, hok]
    simp [storeInsert, hdup]
  · rw [create_meal, hok]
    simp [storeInsert]

/-- C9 witness: creating the live duplicate name "Meal A" fails with the
duplicate error, and a faulting store makes the same valid create fail
with the storage error. -/
theorem create_store_failures_classified_witness :
    goodPrice (.num 13) ∧ goodDifficulty (.str "MED") ∧
    (dbEx.any (fun r => r.meal == "Meal A" && !r.deleted) = true) ∧
    (create_meal dbEx false "Meal A" "Cuisine" (.num 13) (.str "MED")).1
      = .error (.duplicateError "Meal A") ∧
    (create_meal dbEx true "Meal A" "Cuisine" (.num 13) (.str "MED")).1
      = .error .storageError :=
  have h := create_store_failures_classified dbEx "Meal A" "Cuisine" (.num 13)
    (.str "MED") (by norm_num [goodPrice]) (by decide)
  ⟨by norm_num [goodPrice], by decide, rfl, h.1 rfl, h.2⟩

/-- C1 counterexample: with a valid positive price and a valid
difficulty, `create_meal` nevertheless fails (with a duplicate-name
error) when the name is already taken by a live row, so creation does not
succeed for every valid price/difficulty pair. -/
theorem create_valid_inputs_can_fail :
    goodPrice (.num 13) ∧ goodDifficulty (.str "MED") ∧
    (create_meal dbEx false "Meal A" "Cuisine" (.num 13) (.str "MED")).1
      = .error (.duplicateError "Meal A") :=
  ⟨by norm_num [goodPrice], by decide, by rfl⟩

/-- C1 witness: at price 25/2 and difficulty MED against the empty table,
creation succeeds. -/
theorem validation_error_iff_witness :
    goodPrice (.num 13) ∧ goodDifficulty (.str "MED") ∧
    (([] : DB).any (fun r => r.meal == "Pizza" && !r.deleted) = false) ∧
    ∃ db', (create_meal [] false "Pizza" "Italian" (.num 13) (.str "MED")).1
      = .ok db' :=
  ⟨by norm_num [goodPrice], by decide, rfl,
    (validation_error_iff [] false 0 "Pizza" "Italian" (.num 13)
      (.str "MED")).2.2.2 (by norm_num [goodPrice]) (by decide) rfl⟩

end MealMax

namespace WildlifeTracker

/-- C10: every object built by `Migration.__init__` has `status`
"Scheduled": the supplied status argument is overwritten during
construction and has no observable effect on the resulting object. -/
theorem migration_status_scheduled {MP H : Type} (path_id : Int)
    (current_date current_location species start_date : String)
    (start_location : H) (status : String) (destination : H)
    (migration_id : Int) (migration_path : MP) (duration : Option Int)
    (animals : Option (List Int)) :
    (Migration.init path_id current_date current_location species start_date
      start_location status destination migration_id migration_path duration
      animals).status = "Scheduled" := rfl

end WildlifeTracker
